import Mathlib

/-!
Verification of the PDF question-structure extractor
(src/lib/pdfParser.ts): the Segmenter (`detectQuestions`), the Curator
(`cleanQuestions`), and the metadata extractor (`extractTotalMarks`).

Strings are modelled as `List Char`.  Each JavaScript regular expression used
by the source is embedded as a hand-written deterministic matcher (every
optional or greedy piece of those particular regexes is followed by a
character class disjoint from it, so greedy matching without backtracking is
equivalent to the backtracking semantics).  `String.prototype.match` called
with a `/g`-flagged regex returns the list of full-match strings and no
capture groups.  The question regexes also carry the `m` flag, under which
the caret asserts at the start of the input or right after any
LineTerminator; the caller splits only on LF and trims only the ends, so a
line can still contain CR, LS or PS and then match several times.  The scan
is modelled by `jsGMatchGo` below.  On a line with a single match,
`match.slice(1)` is empty and `pattern.format(...)` receives no arguments,
interpolating `undefined`; with further matches the later full-match strings
become the format arguments.
-/

abbrev Str := List Char

/-- JS whitespace class `\s` (WhiteSpace union LineTerminator). -/
def isJsSpace (c : Char) : Bool :=
  c = ' ' || c = '\t' || c = '\n' || c.toNat = 11 || c.toNat = 12 || c = '\r' ||
  c.toNat = 0xA0 || c.toNat = 0x1680 || (0x2000 ≤ c.toNat && c.toNat ≤ 0x200A) ||
  c.toNat = 0x2028 || c.toNat = 0x2029 || c.toNat = 0x202F || c.toNat = 0x205F ||
  c.toNat = 0x3000 || c.toNat = 0xFEFF

/-- JS LineTerminator class: LF, CR, LS, PS.  Under the `m` flag the caret
anchors at the start of the input and right after any of these. -/
def isLineTerm (c : Char) : Bool :=
  c = '\n' || c = '\r' || c.toNat = 0x2028 || c.toNat = 0x2029

/-- the line contains no LineTerminator character.  Lines produced by the
LF split can still contain CR, LS or PS, which is what makes the `m` flag
observable inside one line. -/
def noTermChars (l : Str) : Bool := l.all (fun c => !isLineTerm c)

/-- JS digit class `\d`, i.e. code points 48 to 57. -/
def isDigitCh (c : Char) : Bool := 48 ≤ c.toNat && c.toNat ≤ 57

/-- character class `[a-z]` without the `i` flag. -/
def isLowerAZ (c : Char) : Bool := 97 ≤ c.toNat && c.toNat ≤ 122

/-- character class `[a-z]` under the `i` flag (ASCII case canonicalization). -/
def isLetterCI (c : Char) : Bool := isLowerAZ c || (65 ≤ c.toNat && c.toNat ≤ 90)

/-- ASCII lower-casing, as used by `/i` canonicalization of ASCII literals. -/
def lowerAscii (c : Char) : Char :=
  if 65 ≤ c.toNat && c.toNat ≤ 90 then Char.ofNat (c.toNat + 32) else c

/-- models `String.prototype.trim`: strip `\s` characters from both ends. -/
def trimStr (s : Str) : Str :=
  ((s.dropWhile isJsSpace).reverse.dropWhile isJsSpace).reverse

/-- split the text at newline characters, empty segments kept, as the parse
entry point does before the line walk. -/
def splitNl : Str → List Str
  | [] => [[]]
  | c :: cs =>
    if c = '\n' then [] :: splitNl cs
    else
      match splitNl cs with
      | l :: ls => (c :: l) :: ls
      | [] => [[c]]

/-- join a list of lines with single spaces (the join call of
`extractMarks`). -/
def joinSp : List Str → Str
  | [] => []
  | [l] => l
  | l :: ls => l ++ ' ' :: joinSp ls

/-- value of a digit string under `parseInt` (base 10, digits only). -/
def digitsToNat (ds : Str) : Nat := ds.foldl (fun n c => n * 10 + (c.toNat - 48)) 0

/-- match a literal word case-insensitively (pattern given in lowercase),
returning the rest of the input on success. -/
def matchLitCI : Str → Str → Option Str
  | [], s => some s
  | _ :: _, [] => none
  | p :: ps, c :: cs => if lowerAscii c = p then matchLitCI ps cs else none

/-- greedy `\s+`: at least one whitespace character, returning the rest. -/
def matchWs1 (s : Str) : Option Str :=
  match s with
  | c :: cs => if isJsSpace c then some (cs.dropWhile isJsSpace) else none
  | [] => none

/-- greedy `(\d+)`: the captured digit run and the rest. -/
def matchDigits1 (s : Str) : Option (Str × Str) :=
  match s with
  | c :: cs =>
    if isDigitCh c then some (c :: cs.takeWhile isDigitCh, cs.dropWhile isDigitCh)
    else none
  | [] => none

/-- an optional literal character (`\.?`, `:?`): consume it when present.
Used only where the regex continuation cannot start with that character. -/
def skipOpt (ch : Char) (s : Str) : Str :=
  match s with
  | c :: cs => if c = ch then cs else s
  | [] => []

/-- an optional literal letter under the `i` flag (the optional letter s in
the marks patterns). -/
def skipOptCI (ch : Char) (s : Str) : Str :=
  match s with
  | c :: cs => if lowerAscii c = ch then cs else s
  | [] => []

/-- generic leftmost-match search: try the matcher at every start position,
as a non-anchored JS regex does. -/
def searchFirst {α : Type} (m : Str → Option α) : Str → Option α
  | [] => none
  | c :: cs =>
    match m (c :: cs) with
    | some v => some v
    | none => searchFirst m cs

/-- confidence tag of a detected question. -/
inductive Confidence where
  | high
  | medium
  | low
deriving DecidableEq, Repr

/-- the DetectedQuestion interface. -/
structure DetectedQuestion where
  questionNumber : Str
  questionText : Option Str
  marks : Option Nat
  pageNumber : Nat
  confidence : Confidence
deriving DecidableEq, Repr

/-!
Question-marker patterns.  Each matcher recognizes the body of one regex
(the leading caret removed) at a single position, returning the unconsumed
suffix on success.  The caret itself — which under the `m` flag holds at
position 0 and after any interior LineTerminator — is handled by the
scanning function `jsGMatchGo` below, which only tries a matcher at anchor
positions, as the engine does when collecting the `/g` matches and when
`line.replace(regex, '')` removes the matched spans.
-/

/-- regex `^\s*(\d+)\s*\(([a-z])\)\.?\s+` with flags gim. -/
def mQ1 (l : Str) : Option Str :=
  match matchDigits1 (l.dropWhile isJsSpace) with
  | none => none
  | some (_, s) =>
    match s.dropWhile isJsSpace with
    | '(' :: c :: ')' :: s2 => if isLetterCI c then matchWs1 (skipOpt '.' s2) else none
    | _ => none

/-- regex `^\s*(\d+)\.\s+` with flags gm. -/
def mQ2 (l : Str) : Option Str :=
  match matchDigits1 (l.dropWhile isJsSpace) with
  | some (_, '.' :: s) => matchWs1 s
  | _ => none

/-- regex `^Question\s+(\d+)\.?\s+` with flags gim. -/
def mQ3 (l : Str) : Option Str :=
  match matchLitCI ("question".data) l with
  | none => none
  | some s =>
    match matchWs1 s with
    | none => none
    | some s2 =>
      match matchDigits1 s2 with
      | none => none
      | some (_, s3) => matchWs1 (skipOpt '.' s3)

/-- regex `^Q\.?\s*(\d+)\.?\s+` with flags gim. -/
def mQ4 (l : Str) : Option Str :=
  match l with
  | c :: s =>
    if lowerAscii c = 'q' then
      match matchDigits1 ((skipOpt '.' s).dropWhile isJsSpace) with
      | none => none
      | some (_, s2) => matchWs1 (skipOpt '.' s2)
    else none
  | [] => none

/-- regex `^\s*\(([a-z])\)\.?\s+` with flags gim. -/
def mQ5 (l : Str) : Option Str :=
  match l.dropWhile isJsSpace with
  | '(' :: c :: ')' :: s => if isLetterCI c then matchWs1 (skipOpt '.' s) else none
  | _ => none

/-- the string a JS template literal renders for an undefined argument. -/
def undefStr : Str := "undefined".data

/-- fetch the i-th format argument; a spread of too few arguments leaves the
parameter undefined, which a template literal interpolates as undefStr. -/
def getArg (args : List Str) (i : Nat) : Str := (args[i]?).getD undefStr

/-- format function of pattern 1, interpolating num, an open paren, sub and
a close paren. -/
def fmtQ1 (args : List Str) : Str := getArg args 0 ++ '(' :: (getArg args 1 ++ [')'])

/-- format function of pattern 2, interpolating num alone. -/
def fmtQ2 (args : List Str) : Str := getArg args 0

/-- format function of pattern 3, the word Question, a space, then num. -/
def fmtQ3 (args : List Str) : Str := "Question ".data ++ getArg args 0

/-- format function of pattern 4, the letter Q then num. -/
def fmtQ4 (args : List Str) : Str := 'Q' :: getArg args 0

/-- format function of pattern 5, sub between parentheses. -/
def fmtQ5 (args : List Str) : Str := '(' :: (getArg args 0 ++ [')'])

/-- one entry of the pattern table. -/
structure QPattern where
  matcher : Str → Option Str
  fmt : List Str → Str
  confidence : Confidence

/-- the QUESTION_PATTERNS table, most specific first. -/
def QUESTION_PATTERNS : List QPattern :=
  [⟨mQ1, fmtQ1, .high⟩, ⟨mQ2, fmtQ2, .high⟩, ⟨mQ3, fmtQ3, .high⟩,
   ⟨mQ4, fmtQ4, .medium⟩, ⟨mQ5, fmtQ5, .medium⟩]

/-- the global-match scan of an m-flagged start-anchored regex, as
`String.prototype.match` and `String.prototype.replace` perform it: walk
the string left to right carrying whether the caret asserts at the current
position (position 0, or the previous character is a LineTerminator); where
it does, try the matcher; on a match, record the matched span, drop it from
the kept text, and continue right after it, the anchor for the next
position determined by the last matched character.  The matched span is
recovered from the length of the unconsumed suffix the matcher returns,
which for every embedded matcher is a genuine suffix of its input.  The
fuel argument only bounds the recursion and never runs out when it starts
at the string length; the guard on the rest length never fires for the
embedded matchers, which always consume at least one character.  Returns
the list of full-match strings and the text with the matched spans
removed. -/
def jsGMatchGo (m : Str → Option Str) : Nat → Bool → Str → List Str × Str
  | _, _, [] => ([], [])
  | 0, _, _ :: _ => ([], [])
  | fuel + 1, anchorOk, c :: cs =>
    match (if anchorOk then m (c :: cs) else none) with
    | some rest =>
      if rest.length < cs.length + 1 then
        let n := cs.length + 1 - rest.length
        let matched := (c :: cs).take n
        let next := jsGMatchGo m fuel (isLineTerm (matched.getLastD c)) ((c :: cs).drop n)
        (matched :: next.1, next.2)
      else ([], c :: cs)
    | none =>
      let next := jsGMatchGo m fuel (isLineTerm c) cs
      (next.1, c :: next.2)

/-- values of `line.match(regex)` and `line.replace(regex, '')` for one of
the g- and m-flagged question regexes: the full-match list (under the `g`
flag `match` returns no capture groups) and the line with all matched spans
removed. -/
def jsGMatch (m : Str → Option Str) (line : Str) : List Str × Str :=
  jsGMatchGo m line.length true line

/-- try the patterns in order, first pattern whose regex matches at least
once wins (the for loop with break; `line.match` is truthy exactly when the
match list is non-empty); returns the pattern, the full-match list and the
replace result. -/
def tryPatterns : List QPattern → Str → Option (QPattern × List Str × Str)
  | [], _ => none
  | p :: ps, line =>
    let res := jsGMatch p.matcher line
    if res.1 = ([] : List Str) then tryPatterns ps line
    else some (p, res.1, res.2)

/-- the five canonical ids the detector produces on lines whose match list
is a singleton (each format function applied to the empty list, since
slicing a one-element full-match list past index 0 leaves nothing); a line
with interior LineTerminators can match several times and then produces
other, digit-bearing ids. -/
def keyConsts : List Str := QUESTION_PATTERNS.map (fun p => p.fmt [])

/-!
Marks extraction: the MARKS_PATTERNS table and extractMarks.
-/

/-- regex `(\d+)\s*marks?` with flag i, at one position: the capture. -/
def mMk1 (s : Str) : Option Nat :=
  match matchDigits1 s with
  | some (ds, s2) =>
    match matchLitCI ("mark".data) (s2.dropWhile isJsSpace) with
    | some _ => some (digitsToNat ds)
    | none => none
  | none => none

/-- regex `\((\d+)\s*marks?\)` with flag i, at one position. -/
def mMk2 (s : Str) : Option Nat :=
  match s with
  | '(' :: s1 =>
    match matchDigits1 s1 with
    | some (ds, s2) =>
      match matchLitCI ("mark".data) (s2.dropWhile isJsSpace) with
      | some s3 =>
        match skipOptCI 's' s3 with
        | ')' :: _ => some (digitsToNat ds)
        | _ => none
      | none => none
    | none => none
  | _ => none

/-- regex `\[(\d+)\s*marks?\]` with flag i, at one position. -/
def mMk3 (s : Str) : Option Nat :=
  match s with
  | '[' :: s1 =>
    match matchDigits1 s1 with
    | some (ds, s2) =>
      match matchLitCI ("mark".data) (s2.dropWhile isJsSpace) with
      | some s3 =>
        match skipOptCI 's' s3 with
        | ']' :: _ => some (digitsToNat ds)
        | _ => none
      | none => none
    | none => none
  | _ => none

/-- regex `marks?\s*:?\s*(\d+)` with flag i, at one position. -/
def mMk4 (s : Str) : Option Nat :=
  match matchLitCI ("mark".data) s with
  | none => none
  | some s1 =>
    let s2 := (skipOptCI 's' s1).dropWhile isJsSpace
    match matchDigits1 ((skipOpt ':' s2).dropWhile isJsSpace) with
    | some (ds, _) => some (digitsToNat ds)
    | none => none

/-- regex `\((\d+)\)`, at one position. -/
def mMk5 (s : Str) : Option Nat :=
  match s with
  | '(' :: s1 =>
    match matchDigits1 s1 with
    | some (ds, ')' :: _) => some (digitsToNat ds)
    | _ => none
  | _ => none

/-- regex `\[(\d+)\]`, at one position. -/
def mMk6 (s : Str) : Option Nat :=
  match s with
  | '[' :: s1 =>
    match matchDigits1 s1 with
    | some (ds, ']' :: _) => some (digitsToNat ds)
    | _ => none
  | _ => none

/-- the MARKS_PATTERNS table, in source order. -/
def MARKS_PATTERNS : List (Str → Option Nat) := [mMk1, mMk2, mMk3, mMk4, mMk5, mMk6]

/-- the pattern loop of extractMarks: the first pattern whose leftmost match
captures a number in (0, 100] wins; an out-of-range capture falls through to
the next pattern. -/
def extractMarksGo : List (Str → Option Nat) → Str → Option Nat
  | [], _ => none
  | p :: ps, t =>
    match searchFirst p t with
    | some m => if 0 < m && m ≤ 100 then some m else extractMarksGo ps t
    | none => extractMarksGo ps t

/-- extractMarks: join the given lines with a space, then try the marks
patterns. -/
def extractMarks (lines : List Str) : Option Nat :=
  extractMarksGo MARKS_PATTERNS (joinSp lines)

/-!
Page-break heuristic: isPageBreak.
-/

/-- regex `P\.?\s*T\.?\s*O\.?` with flag i, at one position (used through
test, so only success matters). -/
def mPTO (s : Str) : Option Unit :=
  match s with
  | c :: s1 =>
    if lowerAscii c = 'p' then
      match (skipOpt '.' s1).dropWhile isJsSpace with
      | c2 :: s2 =>
        if lowerAscii c2 = 't' then
          match (skipOpt '.' s2).dropWhile isJsSpace with
          | c3 :: _ => if lowerAscii c3 = 'o' then some () else none
          | [] => none
        else none
      | [] => none
    else none
  | [] => none

/-- regex `Page\s+\d+` with flag i, at one position. -/
def mPage (s : Str) : Option Unit :=
  match matchLitCI ("page".data) s with
  | some s1 =>
    match matchWs1 s1 with
    | some s2 =>
      match s2 with
      | c :: _ => if isDigitCh c then some () else none
      | [] => none
    | none => none
  | none => none

/-- regex `^\s*\d+\s*$`: the line is just a number. -/
def isOnlyNumber (l : Str) : Bool :=
  match matchDigits1 (l.dropWhile isJsSpace) with
  | some (_, rest) => rest.dropWhile isJsSpace = ([] : Str)
  | none => false

/-- regex `\[\s*\d+\s*\]`, at one position. -/
def mBracketNum (s : Str) : Option Unit :=
  match s with
  | '[' :: s1 =>
    match matchDigits1 (s1.dropWhile isJsSpace) with
    | some (_, rest) =>
      match rest.dropWhile isJsSpace with
      | ']' :: _ => some ()
      | _ => none
    | none => none
  | _ => none

/-- a number enclosed in square brackets occurs somewhere in the line. -/
def hasBracketNum (l : Str) : Bool := (searchFirst mBracketNum l).isSome

/-- isPageBreak: any of the four indicators matches the line. -/
def isPageBreak (l : Str) : Bool :=
  (searchFirst mPTO l).isSome || (searchFirst mPage l).isSome ||
  isOnlyNumber l || hasBracketNum l

/-!
The Segmenter: detectQuestions.
-/

/-- the record created for a newly seen canonical id: questionNumber is
`pattern.format(...match.slice(1))`, the format function applied to every
full-match string after the first (no capture groups reach it),
questionText the trimmed replace result with the empty string coerced to
absent, marks scanned over this raw line plus the next two raw lines. -/
def mkRecord (p : QPattern) (ms : List Str) (removed : Str) (page : Nat) (l : Str)
    (ls : List Str) : DetectedQuestion :=
  let qtext := trimStr removed
  { questionNumber := p.fmt (ms.drop 1)
    questionText := if qtext = ([] : Str) then none else some qtext
    marks := extractMarks (l :: ls.take 2)
    pageNumber := page
    confidence := p.confidence }

/-- the body of the line walk for one line: skip blank lines, consume
page-break lines while incrementing the page counter, otherwise try the
question patterns and create a record for a first-seen canonical id. -/
def processLine (page : Nat) (acc : List DetectedQuestion) (l : Str) (ls : List Str) :
    Nat × List DetectedQuestion :=
  let line := trimStr l
  if line = ([] : Str) then (page, acc)
  else if isPageBreak line then (page + 1, acc)
  else
    match tryPatterns QUESTION_PATTERNS line with
    | none => (page, acc)
    | some (p, ms, removed) =>
      let r := mkRecord p ms removed page l ls
      if acc.any (fun q => q.questionNumber == r.questionNumber) then (page, acc)
      else (page, acc ++ [r])

/-- the line walk of detectQuestions: the page counter and the
insertion-ordered map are threaded as state, the map represented by its
insertion-ordered value list. -/
def detectGo : Nat → List DetectedQuestion → List Str → List DetectedQuestion
  | _, acc, [] => acc
  | page, acc, l :: ls =>
    let st := processLine page acc l ls
    detectGo st.1 st.2 ls

/-- first run of digits anywhere in the string (the match against `\d+`). -/
def firstDigitRun : Str → Option Str
  | [] => none
  | c :: cs =>
    if isDigitCh c then some (c :: cs.takeWhile isDigitCh) else firstDigitRun cs

/-- numeric portion: parseInt of the first digit run, 0 when there is
none. -/
def numKey (s : Str) : Nat :=
  match firstDigitRun s with
  | some ds => digitsToNat ds
  | none => 0

/-- first match of the regex `\(([a-z])\)`: a single lowercase letter
between parentheses. -/
def subLetter : Str → Option Char
  | c1 :: rest =>
    match rest with
    | c2 :: ')' :: _ =>
      if c1 = '(' && isLowerAZ c2 then some c2 else subLetter rest
    | _ => subLetter rest
  | [] => none

/-- comparator compareQuestionNumbers: numeric portions first, then
lettered sub-parts; localeCompare on single letters is modelled as the sign
of the code-point comparison. -/
def compareQuestionNumbers (a b : Str) : Int :=
  let numA : Int := numKey a
  let numB : Int := numKey b
  if numA ≠ numB then numA - numB
  else
    match subLetter a, subLetter b with
    | some x, some y => if x < y then -1 else if x = y then 0 else 1
    | some _, none => 1
    | none, some _ => -1
    | none, none => 0

/-- stable insertion of one element into an already-sorted prefix. -/
def insertQ (x : DetectedQuestion) : List DetectedQuestion → List DetectedQuestion
  | [] => [x]
  | y :: ys =>
    if compareQuestionNumbers x.questionNumber y.questionNumber < 0 then x :: y :: ys
    else y :: insertQ x ys

/-- models the sort call on the detected array: ECMAScript guarantees a
stable sort, and the comparator is a consistent total preorder, so any
stable sort gives the same list; this one inserts left to right, placing
each element after every earlier element that does not compare greater. -/
def sortQuestions (xs : List DetectedQuestion) : List DetectedQuestion :=
  xs.foldl (fun acc x => insertQ x acc) []

/-- segmenter detectQuestions: walk the lines, then sort. -/
def detectQuestions (lines : List Str) : List DetectedQuestion :=
  sortQuestions (detectGo 1 [] lines)

/-- the question-related fields of the parse result. -/
structure ParseOutput where
  totalQuestions : Nat
  questions : List DetectedQuestion
deriving DecidableEq, Repr

/-- the parse entry point after text extraction, restricted to its question
fields: split into lines, detect, and report the count. -/
def parseQuestions (text : Str) : ParseOutput :=
  let qs := detectQuestions (splitNl text)
  { totalQuestions := qs.length, questions := qs }

/-!
The Curator: cleanQuestions.
-/

/-- the dedup pass: a Map keyed by questionNumber, first occurrence wins,
iterated in insertion order. -/
def dedupGo (seen : List Str) : List DetectedQuestion → List DetectedQuestion
  | [] => []
  | q :: qs =>
    if q.questionNumber ∈ seen then dedupGo seen qs
    else q :: dedupGo (q.questionNumber :: seen) qs

/-- the false-positive filter: drop a record whose questionText is truthy
(present and non-empty) yet shorter than 3 characters, and drop a record
whose numeric portion is outside the range 1 to 100. -/
def keepQ (q : DetectedQuestion) : Bool :=
  if (match q.questionText with
      | some t => decide (t ≠ ([] : Str)) && decide (t.length < 3)
      | none => false) then
    false
  else if numKey q.questionNumber < 1 || numKey q.questionNumber > 100 then false
  else true

/-- curator cleanQuestions: dedup, then filter false positives. -/
def cleanQuestions (questions : List DetectedQuestion) : List DetectedQuestion :=
  (dedupGo [] questions).filter keepQ

/-!
Metadata extractor: extractTotalMarks.
-/

/-- regex `Maximum\s+Marks?\s*:?\s*(\d+)` with flag i, at one position. -/
def mMax (s : Str) : Option Nat :=
  match matchLitCI ("maximum".data) s with
  | some s1 =>
    match matchWs1 s1 with
    | some s2 => mMk4 s2
    | none => none
  | none => none

/-- regex `Total\s+Marks?\s*:?\s*(\d+)` with flag i, at one position. -/
def mTotal (s : Str) : Option Nat :=
  match matchLitCI ("total".data) s with
  | some s1 =>
    match matchWs1 s1 with
    | some s2 => mMk4 s2
    | none => none
  | none => none

/-- the pattern loop of extractTotalMarks: the first pattern whose leftmost
match captures a number in the range 10 to 500 wins; an out-of-range
capture falls through to the next pattern. -/
def extractTotalGo : List (Str → Option Nat) → Str → Option Nat
  | [], _ => none
  | p :: ps, t =>
    match searchFirst p t with
    | some m => if 10 ≤ m && m ≤ 500 then some m else extractTotalGo ps t
    | none => extractTotalGo ps t

/-- metadata extractor extractTotalMarks. -/
def extractTotalMarks (t : Str) : Option Nat :=
  extractTotalGo [mMax, mTotal, mMk4] t

/-- the first input record carrying a given id, as a zero-or-one element
list: what the first-occurrence-wins policy keeps for that id before
filtering. -/
def firstWithKey (k : Str) (xs : List DetectedQuestion) : List DetectedQuestion :=
  match xs.find? (fun q => q.questionNumber == k) with
  | some q => [q]
  | none => []

/-- sortedness of a record list by ascending numeric portion of the id;
this is the order property the specification ascribes to curation. -/
def sortedByNumKey : List DetectedQuestion → Bool
  | a :: b :: t =>
    decide (numKey a.questionNumber ≤ numKey b.questionNumber) && sortedByNumKey (b :: t)
  | _ => true

/-!
Sanity checks of the embedding on concrete inputs.
-/

example : trimStr ("  ab ".data) = "ab".data := by decide

example : mQ1 ("1(a). Solve for x".data) = some ("Solve for x".data) := by decide

example : mQ2 ("3. Evaluate".data) = some ("Evaluate".data) := by decide

example : (tryPatterns QUESTION_PATTERNS ("Q2 Define work".data)).isSome = true := by
  decide

example : extractMarks ["1(a). Solve for x".data, "".data, "5 marks".data] = some 5 := by
  decide

example : isPageBreak ("P.T.O.".data) = true := by decide

example : isPageBreak ("Page 3".data) = true := by decide

example : isPageBreak ("  7 ".data) = true := by decide

example : isPageBreak ("1. Solve [5]".data) = true := by decide

example : isPageBreak ("1(a). Solve for x".data) = false := by decide

example : numKey ("Q17(b)".data) = 17 := by decide

example : subLetter ("12(b)".data) = some 'b' := by decide

example : subLetter ("(undefined)".data) = none := by decide

example : extractTotalMarks ("Maximum Marks: 80".data) = some 80 := by decide

example : extractTotalMarks ("Marks: 5".data) = none := by decide

example :
    detectQuestions ["Page 2".data, "Q3 Explain gravity".data] =
      [{ questionNumber := "Qundefined".data,
         questionText := some ("Explain gravity".data),
         marks := none, pageNumber := 2, confidence := .medium }] := by decide


/-!
Lemmas about the Curator.
-/

theorem mem_dedupGo (seen : List Str) (xs : List DetectedQuestion) (q : DetectedQuestion)
    (h : q ∈ dedupGo seen xs) : q.questionNumber ∉ seen := by
  induction xs generalizing seen with
  | nil => simp [dedupGo] at h
  | cons x xs ih =>
    by_cases hx : x.questionNumber ∈ seen
    · rw [dedupGo, if_pos hx] at h
      exact ih seen h
    · rw [dedupGo, if_neg hx] at h
      rcases List.mem_cons.mp h with rfl | h2
      · exact hx
      · intro hq
        exact ih (x.questionNumber :: seen) h2 (List.mem_cons_of_mem _ hq)

theorem dedupGo_keys_nodup (seen : List Str) (xs : List DetectedQuestion) :
    ((dedupGo seen xs).map (fun q => q.questionNumber)).Nodup := by
  induction xs generalizing seen with
  | nil => simp [dedupGo]
  | cons x xs ih =>
    by_cases hx : x.questionNumber ∈ seen
    · rw [dedupGo, if_pos hx]
      exact ih seen
    · rw [dedupGo, if_neg hx, List.map_cons]
      refine List.nodup_cons.mpr ⟨?_, ih _⟩
      intro hmem
      rcases List.mem_map.mp hmem with ⟨q, hq, hkey⟩
      exact mem_dedupGo _ _ _ hq (hkey ▸ List.mem_cons_self _ _)

theorem dedupGo_eq_self (xs : List DetectedQuestion) :
    ∀ seen : List Str, (xs.map (fun q => q.questionNumber)).Nodup →
      (∀ q ∈ xs, q.questionNumber ∉ seen) → dedupGo seen xs = xs := by
  induction xs with
  | nil => intro seen _ _; rfl
  | cons x xs ih =>
    intro seen h1 h2
    have hx : x.questionNumber ∉ seen := h2 x (List.mem_cons_self _ _)
    rw [dedupGo, if_neg hx]
    rw [List.map_cons, List.nodup_cons] at h1
    congr 1
    refine ih _ h1.2 ?_
    intro q hq hmem
    rcases List.mem_cons.mp hmem with heq | hseen
    · exact h1.1 (heq ▸ List.mem_map_of_mem (fun q => q.questionNumber) hq)
    · exact h2 q (List.mem_cons_of_mem _ hq) hseen

theorem dedupGo_sublist (seen : List Str) (xs : List DetectedQuestion) :
    (dedupGo seen xs).Sublist xs := by
  induction xs generalizing seen with
  | nil => simp [dedupGo]
  | cons x xs ih =>
    by_cases hx : x.questionNumber ∈ seen
    · rw [dedupGo, if_pos hx]
      exact (ih seen).cons x
    · rw [dedupGo, if_neg hx]
      exact (ih _).cons₂ x

theorem cleanQuestions_sublist (xs : List DetectedQuestion) :
    (cleanQuestions xs).Sublist xs :=
  (List.filter_sublist _).trans (dedupGo_sublist [] xs)

theorem filterTwice {α : Type} (p : α → Bool) (l : List α) :
    (l.filter p).filter p = l.filter p := by
  rw [List.filter_filter]
  simp only [Bool.and_self]

theorem filterComm {α : Type} (p q : α → Bool) (l : List α) :
    (l.filter p).filter q = (l.filter q).filter p := by
  rw [List.filter_filter, List.filter_filter]
  apply List.filter_congr
  intro a _
  rw [Bool.and_comm]

theorem keepQ_num_range (q : DetectedQuestion) (hk : keepQ q = true) :
    1 ≤ numKey q.questionNumber ∧ numKey q.questionNumber ≤ 100 := by
  unfold keepQ at hk
  split at hk
  · exact absurd hk (by simp)
  · split at hk
    · exact absurd hk (by simp)
    · rename_i hcond
      rw [Bool.or_eq_true, not_or] at hcond
      obtain ⟨h1, h2⟩ := hcond
      simp only [decide_eq_true_eq, Nat.not_lt] at h1 h2
      omega

theorem keepQ_text_ok (q : DetectedQuestion) (hk : keepQ q = true) :
    ∀ t, q.questionText = some t → t = ([] : Str) ∨ 3 ≤ t.length := by
  intro t ht
  by_cases hemp : t = ([] : Str)
  · exact Or.inl hemp
  · by_cases hlen : 3 ≤ t.length
    · exact Or.inr hlen
    · exfalso
      have hcond : (match q.questionText with
          | some t => decide (t ≠ ([] : Str)) && decide (t.length < 3)
          | none => false) = true := by
        rw [ht]
        simp only [Bool.and_eq_true, decide_eq_true_eq]
        exact ⟨hemp, by omega⟩
      unfold keepQ at hk
      rw [if_pos hcond] at hk
      exact Bool.false_ne_true hk

theorem firstDigitRun_none_iff (s : Str) :
    firstDigitRun s = none ↔ ∀ c ∈ s, isDigitCh c = false := by
  induction s with
  | nil => simp [firstDigitRun]
  | cons c cs ih =>
    by_cases hc : isDigitCh c = true
    · rw [firstDigitRun, if_pos hc]
      constructor
      · intro h
        exact absurd h (by simp)
      · intro h
        exact absurd (h c (List.mem_cons_self _ _)) (by simp [hc])
    · rw [firstDigitRun, if_neg hc, ih]
      have hcf : isDigitCh c = false := by
        revert hc
        cases isDigitCh c <;> simp
      constructor
      · intro h d hd
        rcases List.mem_cons.mp hd with rfl | hd
        · exact hcf
        · exact h d hd
      · intro h d hd
        exact h d (List.mem_cons_of_mem _ hd)

theorem firstWithKey_cons_of_pos (k : Str) (x : DetectedQuestion) (xs : List DetectedQuestion)
    (h : x.questionNumber = k) : firstWithKey k (x :: xs) = [x] := by
  have hfind : List.find? (fun q => q.questionNumber == k) (x :: xs) = some x :=
    List.find?_cons_of_pos _ (by simp [h])
  simp [firstWithKey, hfind]

theorem firstWithKey_cons_of_neg (k : Str) (x : DetectedQuestion) (xs : List DetectedQuestion)
    (h : ¬(x.questionNumber = k)) : firstWithKey k (x :: xs) = firstWithKey k xs := by
  have hfind : List.find? (fun q => q.questionNumber == k) (x :: xs) =
      List.find? (fun q => q.questionNumber == k) xs :=
    List.find?_cons_of_neg _ (by simp [h])
  simp only [firstWithKey, hfind]

theorem dedupGo_filter_of_mem (k : Str) (seen : List Str) (xs : List DetectedQuestion)
    (hk : k ∈ seen) :
    (dedupGo seen xs).filter (fun q => q.questionNumber == k) = [] := by
  rw [List.filter_eq_nil_iff]
  intro q hq hpq
  exact mem_dedupGo seen xs q hq (eq_of_beq hpq ▸ hk)

theorem dedupGo_filter_key (k : Str) (xs : List DetectedQuestion) :
    ∀ seen : List Str, k ∉ seen →
      (dedupGo seen xs).filter (fun q => q.questionNumber == k) = firstWithKey k xs := by
  induction xs with
  | nil => intro seen _; simp [dedupGo, firstWithKey]
  | cons x xs ih =>
    intro seen hk
    by_cases hx : x.questionNumber ∈ seen
    · have hxk : ¬(x.questionNumber = k) := fun heq => hk (heq ▸ hx)
      rw [dedupGo, if_pos hx, firstWithKey_cons_of_neg k x xs hxk]
      exact ih seen hk
    · by_cases hxk : x.questionNumber = k
      · rw [dedupGo, if_neg hx, firstWithKey_cons_of_pos k x xs hxk,
          List.filter_cons_of_pos (by simp [hxk])]
        rw [dedupGo_filter_of_mem k _ xs (hxk ▸ List.mem_cons_self _ _)]
      · rw [dedupGo, if_neg hx, firstWithKey_cons_of_neg k x xs hxk,
          List.filter_cons_of_neg (by simp [hxk])]
        refine ih _ ?_
        intro hmem
        rcases List.mem_cons.mp hmem with heq | hseen
        · exact hxk heq.symm
        · exact hk hseen

theorem cleanQuestions_filter_key (k : Str) (xs : List DetectedQuestion) :
    (cleanQuestions xs).filter (fun q => q.questionNumber == k) =
      (firstWithKey k xs).filter keepQ := by
  unfold cleanQuestions
  rw [filterComm, dedupGo_filter_key k xs [] (List.not_mem_nil k)]

/-!
Lemmas about the Segmenter.
-/

theorem jsGMatchGo_false (m : Str → Option Str) (s : Str) :
    ∀ fuel : Nat, s.length ≤ fuel → (∀ c ∈ s, isLineTerm c = false) →
      jsGMatchGo m fuel false s = ([], s) := by
  induction s with
  | nil =>
    intro fuel _ _
    cases fuel <;> rfl
  | cons c cs ih =>
    intro fuel hfuel hlt
    cases fuel with
    | zero => exact absurd hfuel (by simp)
    | succ f =>
      have hc : isLineTerm c = false := hlt c (List.mem_cons_self _ _)
      have hrec : jsGMatchGo m f (isLineTerm c) cs = ([], cs) := by
        rw [hc]
        exact ih f (by simp at hfuel ⊢; omega)
          (fun d hd => hlt d (List.mem_cons_of_mem _ hd))
      simp [jsGMatchGo, hrec]

theorem jsGMatchGo_single (m : Str → Option Str) (s : Str) (fuel : Nat)
    (hfuel : s.length ≤ fuel) (hlt : ∀ c ∈ s, isLineTerm c = false) :
    ((jsGMatchGo m fuel true s).1).drop 1 = [] := by
  cases s with
  | nil => cases fuel <;> rfl
  | cons c cs =>
    cases fuel with
    | zero => exact absurd hfuel (by simp)
    | succ f =>
      have hcs : cs.length ≤ f := by simp at hfuel; omega
      cases hm : m (c :: cs) with
      | none =>
        have hc : isLineTerm c = false := hlt c (List.mem_cons_self _ _)
        have hrec : jsGMatchGo m f (isLineTerm c) cs = ([], cs) := by
          rw [hc]
          exact jsGMatchGo_false m cs f hcs
            (fun d hd => hlt d (List.mem_cons_of_mem _ hd))
        simp [jsGMatchGo, hm, hrec]
      | some rest =>
        by_cases hlen : rest.length < cs.length + 1
        · have hanchor :
              isLineTerm ((((c :: cs).take (cs.length + 1 - rest.length))).getLastD c)
                = false := by
            have hmem := List.getLastD_mem_cons
              ((c :: cs).take (cs.length + 1 - rest.length)) c
            rcases List.mem_cons.mp hmem with heq | hmem2
            · rw [heq]
              exact hlt c (List.mem_cons_self _ _)
            · exact hlt _ ((List.take_sublist _ _).subset hmem2)
          have hdroplen : ((c :: cs).drop (cs.length + 1 - rest.length)).length ≤ f := by
            rw [List.length_drop]
            simp
            omega
          have hdropmem : ∀ d ∈ (c :: cs).drop (cs.length + 1 - rest.length),
              isLineTerm d = false :=
            fun d hd => hlt d ((List.drop_sublist _ _).subset hd)
          have hrec : jsGMatchGo m f
              (isLineTerm (((c :: cs).take (cs.length + 1 - rest.length)).getLastD c))
              ((c :: cs).drop (cs.length + 1 - rest.length)) =
              ([], (c :: cs).drop (cs.length + 1 - rest.length)) := by
            rw [hanchor]
            exact jsGMatchGo_false m _ f hdroplen hdropmem
          have hrec2 := hrec
          simp only [List.getLastD_eq_getLast?] at hrec2
          simp [jsGMatchGo, hm, hlen, hrec, hrec2]
        · simp [jsGMatchGo, hm, hlen]

theorem mem_of_mem_trimStr (c : Char) (l : Str) (h : c ∈ trimStr l) : c ∈ l := by
  unfold trimStr at h
  rw [List.mem_reverse] at h
  have h2 := (List.dropWhile_sublist isJsSpace).subset h
  rw [List.mem_reverse] at h2
  exact (List.dropWhile_sublist isJsSpace).subset h2

theorem tryPatterns_sound (ps : List QPattern) (line : Str) (p : QPattern)
    (ms : List Str) (removed : Str) (h : tryPatterns ps line = some (p, ms, removed)) :
    p ∈ ps ∧ jsGMatch p.matcher line = (ms, removed) ∧ ms ≠ [] := by
  induction ps with
  | nil => simp [tryPatterns] at h
  | cons p0 ps ih =>
    by_cases h0 : (jsGMatch p0.matcher line).1 = ([] : List Str)
    · rw [tryPatterns, if_pos h0] at h
      obtain ⟨h1, h2, h3⟩ := ih h
      exact ⟨List.mem_cons_of_mem _ h1, h2, h3⟩
    · rw [tryPatterns, if_neg h0] at h
      injection h with h1
      injection h1 with hp h2
      injection h2 with hms hrem
      subst hp
      subst hms
      subst hrem
      exact ⟨List.mem_cons_self _ _, Prod.mk.eta.symm, h0⟩

theorem mkRecord_key (p : QPattern) (ms : List Str) (removed : Str) (page : Nat)
    (l : Str) (ls : List Str) (hms : ms.drop 1 = []) :
    (mkRecord p ms removed page l ls).questionNumber = p.fmt [] := by
  simp [mkRecord, hms]

theorem processLine_acc_cases (page : Nat) (acc : List DetectedQuestion) (l : Str)
    (ls : List Str) (hl : ∀ c ∈ trimStr l, isLineTerm c = false) :
    (processLine page acc l ls).2 = acc ∨
      ∃ p, p ∈ QUESTION_PATTERNS ∧ ∃ r : DetectedQuestion,
        r.questionNumber = p.fmt [] ∧ (processLine page acc l ls).2 = acc ++ [r] := by
  unfold processLine
  by_cases h1 : trimStr l = ([] : Str)
  · left
    simp [h1]
  · by_cases h2 : isPageBreak (trimStr l)
    · left
      simp [h1, h2]
    · cases h3 : tryPatterns QUESTION_PATTERNS (trimStr l) with
      | none =>
        left
        simp [h1, h2, h3]
      | some pr =>
        obtain ⟨p, ms, removed⟩ := pr
        obtain ⟨hp, hjs, hne⟩ := tryPatterns_sound _ _ _ _ _ h3
        have hdrop : ms.drop 1 = [] := by
          have hsingle := jsGMatchGo_single p.matcher (trimStr l) ((trimStr l).length)
            (Nat.le_refl _) hl
          rw [show jsGMatchGo p.matcher (trimStr l).length true (trimStr l) =
              jsGMatch p.matcher (trimStr l) from rfl, hjs] at hsingle
          exact hsingle
        by_cases h4 : acc.any (fun q =>
            q.questionNumber == (mkRecord p ms removed page l ls).questionNumber)
        · left
          simp [h1, h2, h3, h4]
        · right
          refine ⟨p, hp, mkRecord p ms removed page l ls,
            mkRecord_key p ms removed page l ls hdrop, ?_⟩
          simp [h1, h2, h3, h4]

theorem detectGo_keys (lines : List Str) :
    ∀ (page : Nat) (acc : List DetectedQuestion),
      (∀ l ∈ lines, ∀ c ∈ trimStr l, isLineTerm c = false) →
      (∀ q ∈ acc, q.questionNumber ∈ keyConsts) →
      ∀ q ∈ detectGo page acc lines, q.questionNumber ∈ keyConsts := by
  induction lines with
  | nil =>
    intro page acc _ hacc q hq
    rw [detectGo] at hq
    exact hacc q hq
  | cons l ls ih =>
    intro page acc hlt hacc q hq
    rw [detectGo] at hq
    refine ih _ _ (fun l2 hl2 => hlt l2 (List.mem_cons_of_mem _ hl2)) ?_ q hq
    intro q2 hq2
    rcases processLine_acc_cases page acc l ls (hlt l (List.mem_cons_self _ _)) with
      hcase | ⟨p, hp, r, hr, hcase⟩
    · rw [hcase] at hq2
      exact hacc q2 hq2
    · rw [hcase] at hq2
      rcases List.mem_append.mp hq2 with hmem | hmem
      · exact hacc q2 hmem
      · rw [List.mem_singleton.mp hmem, hr]
        exact List.mem_map_of_mem (fun p => p.fmt []) hp

theorem cmp_keyConsts :
    ∀ a ∈ keyConsts, ∀ b ∈ keyConsts, compareQuestionNumbers a b = 0 := by decide

theorem insertQ_append (x : DetectedQuestion) :
    ∀ acc : List DetectedQuestion,
      (∀ y ∈ acc, compareQuestionNumbers x.questionNumber y.questionNumber = 0) →
      insertQ x acc = acc ++ [x] := by
  intro acc
  induction acc with
  | nil => intro _; rfl
  | cons y ys ih =>
    intro h
    have hy := h y (List.mem_cons_self _ _)
    rw [insertQ, if_neg (by rw [hy]; omega)]
    rw [ih (fun z hz => h z (List.mem_cons_of_mem _ hz))]
    rfl

theorem foldl_insertQ :
    ∀ xs acc : List DetectedQuestion,
      (∀ x ∈ xs, x.questionNumber ∈ keyConsts) →
      (∀ y ∈ acc, y.questionNumber ∈ keyConsts) →
      List.foldl (fun acc x => insertQ x acc) acc xs = acc ++ xs := by
  intro xs
  induction xs with
  | nil =>
    intro acc _ _
    simp
  | cons x xs ih =>
    intro acc hxs hacc
    rw [List.foldl_cons]
    have hx := hxs x (List.mem_cons_self _ _)
    rw [insertQ_append x acc (fun y hy => cmp_keyConsts _ hx _ (hacc y hy))]
    rw [ih (acc ++ [x]) (fun z hz => hxs z (List.mem_cons_of_mem _ hz)) ?_]
    · rw [List.append_assoc]
      rfl
    · intro y hy
      rcases List.mem_append.mp hy with hmem | hmem
      · exact hacc y hmem
      · rw [List.mem_singleton.mp hmem]
        exact hx

theorem processLine_snd_of_none (page : Nat) (acc : List DetectedQuestion) (l : Str)
    (ls : List Str) (h : tryPatterns QUESTION_PATTERNS (trimStr l) = none) :
    (processLine page acc l ls).2 = acc := by
  unfold processLine
  by_cases h1 : trimStr l = ([] : Str)
  · simp [h1]
  · by_cases h2 : isPageBreak (trimStr l)
    · simp [h1, h2]
    · simp [h1, h2, h]

theorem detectGo_eq_nil (lines : List Str) :
    ∀ page : Nat,
      (∀ l ∈ lines, (tryPatterns QUESTION_PATTERNS (trimStr l)).isSome = false) →
      detectGo page [] lines = [] := by
  induction lines with
  | nil => intro page _; rfl
  | cons l ls ih =>
    intro page h
    have hl : tryPatterns QUESTION_PATTERNS (trimStr l) = none := by
      have := h l (List.mem_cons_self _ _)
      exact Option.not_isSome_iff_eq_none.mp (by simp [this])
    rw [detectGo]
    rw [processLine_snd_of_none page [] l ls hl]
    exact ih _ (fun l2 hl2 => h l2 (List.mem_cons_of_mem _ hl2))

/-!
Claim theorems.
-/

/-- C1: on the text whose first line is "1(a). Solve for x" and whose line
two positions later is "5 marks", the segmenter produces exactly one record,
with questionText "Solve for x", marks 5, pageNumber 1 and high confidence —
but its questionNumber is "undefined(undefined)", not "1(a)" as the claim
states: `match` on a `/g`-flagged regex returns no capture groups, so
`format(...match.slice(1))` interpolates undefined.  This theorem evaluates
the code at the failing input. -/
theorem c1_scenario1_eval :
    parseQuestions ("1(a). Solve for x\n\n5 marks".data) =
      { totalQuestions := 1,
        questions := [{ questionNumber := "undefined(undefined)".data,
                        questionText := some ("Solve for x".data),
                        marks := some 5, pageNumber := 1, confidence := .high }] } := by
  decide

/-- C2 counterexample: the curate operation does not sort.  On the input
list with ids "2" then "1" (both kept by the filters), the output is
unchanged and is not ascending by numeric portion, refuting the claim that
curation returns a list sorted ascending by the numeric id. -/
theorem c2_counterexample :
    cleanQuestions
        [{ questionNumber := "2".data, questionText := none, marks := none,
           pageNumber := 1, confidence := .high },
         { questionNumber := "1".data, questionText := none, marks := none,
           pageNumber := 1, confidence := .high }] =
      [{ questionNumber := "2".data, questionText := none, marks := none,
         pageNumber := 1, confidence := .high },
       { questionNumber := "1".data, questionText := none, marks := none,
         pageNumber := 1, confidence := .high }] ∧
      sortedByNumKey
        (cleanQuestions
          [{ questionNumber := "2".data, questionText := none, marks := none,
             pageNumber := 1, confidence := .high },
           { questionNumber := "1".data, questionText := none, marks := none,
             pageNumber := 1, confidence := .high }]) = false := by decide

/-- C2 (amended): the curate operation performs no sorting; it preserves the
relative order of the records it keeps (its output is a subsequence of its
input), so whenever the input is already sorted by the question-number
comparator — ascending numeric portion, ties broken with no-sub-part first
and lettered sub-parts in letter order, exactly the comparator the segmenter
sorts with — the curated output is sorted the same way. -/
theorem c2_curate_order (xs : List DetectedQuestion) :
    (cleanQuestions xs).Sublist xs ∧
      (xs.Pairwise
          (fun a b => compareQuestionNumbers a.questionNumber b.questionNumber ≤ 0) →
        (cleanQuestions xs).Pairwise
          (fun a b => compareQuestionNumbers a.questionNumber b.questionNumber ≤ 0)) :=
  ⟨cleanQuestions_sublist xs,
   fun h => List.Pairwise.sublist (cleanQuestions_sublist xs) h⟩

/-- C2 witness: the amended claim instantiated on a concrete sorted list. -/
theorem c2_witness :
    (cleanQuestions
        [{ questionNumber := "1".data, questionText := none, marks := none,
           pageNumber := 1, confidence := .high },
         { questionNumber := "2".data, questionText := none, marks := none,
           pageNumber := 1, confidence := .high }]).Sublist
      [{ questionNumber := "1".data, questionText := none, marks := none,
         pageNumber := 1, confidence := .high },
       { questionNumber := "2".data, questionText := none, marks := none,
         pageNumber := 1, confidence := .high }] ∧
      (cleanQuestions
        [{ questionNumber := "1".data, questionText := none, marks := none,
           pageNumber := 1, confidence := .high },
         { questionNumber := "2".data, questionText := none, marks := none,
           pageNumber := 1, confidence := .high }]).Pairwise
        (fun a b => compareQuestionNumbers a.questionNumber b.questionNumber ≤ 0) :=
  ⟨(c2_curate_order
      [{ questionNumber := "1".data, questionText := none, marks := none,
         pageNumber := 1, confidence := .high },
       { questionNumber := "2".data, questionText := none, marks := none,
         pageNumber := 1, confidence := .high }]).1,
   (c2_curate_order
      [{ questionNumber := "1".data, questionText := none, marks := none,
         pageNumber := 1, confidence := .high },
       { questionNumber := "2".data, questionText := none, marks := none,
         pageNumber := 1, confidence := .high }]).2 (by decide)⟩

/-- C3 counterexample: the segmenter does not always return records in
discovery order.  The line a 3-marker, then a CR, then a 9-marker is
anchored twice by the m flag, so its full-match list is two strings and
`match.slice(1)` hands the second full match "9. " to the format function,
yielding the digit-bearing id "9. "; the next line yields the id
"undefined".  The walk discovers the "9. " record first, but the trailing
sort puts the key-0 id "undefined" before the key-9 id, so the returned
order differs from discovery order. -/
theorem c3_counterexample :
    detectGo 1 [] ["3. x\r9. y".data, "2. b c".data] =
      [{ questionNumber := "9. ".data, questionText := some ("x\ry".data),
         marks := none, pageNumber := 1, confidence := .high },
       { questionNumber := "undefined".data, questionText := some ("b c".data),
         marks := none, pageNumber := 1, confidence := .high }] ∧
      detectQuestions ["3. x\r9. y".data, "2. b c".data] =
        [{ questionNumber := "undefined".data, questionText := some ("b c".data),
           marks := none, pageNumber := 1, confidence := .high },
         { questionNumber := "9. ".data, questionText := some ("x\ry".data),
           marks := none, pageNumber := 1, confidence := .high }] := by decide

/-- C3 (amended): on every input whose lines contain no LineTerminator
characters (CR, LS, PS — LF cannot occur after the LF split), the segmenter
returns the detected records in first-seen (discovery) order:
detectQuestions equals the raw line walk detectGo, which appends each record
at the moment its canonical id is first seen.  For such lines each m-flagged
regex anchors only at position 0, every match list is a singleton, every
canonical id is one of the five constants of keyConsts, the comparator
returns 0 on any pair of them, and the stable sort keeps the walk order. -/
theorem c3_discovery_order (lines : List Str)
    (h : ∀ l ∈ lines, noTermChars l = true) :
    detectQuestions lines = detectGo 1 [] lines := by
  have h2 : ∀ l ∈ lines, ∀ c ∈ trimStr l, isLineTerm c = false := by
    intro l hl c hc
    have hmem : c ∈ l := mem_of_mem_trimStr c l hc
    have := h l hl
    rw [noTermChars, List.all_eq_true] at this
    have hb := this c hmem
    revert hb
    cases isLineTerm c <;> simp
  unfold detectQuestions sortQuestions
  rw [foldl_insertQ (detectGo 1 [] lines) []
      (detectGo_keys lines 1 [] h2 (by intro q hq; exact absurd hq (List.not_mem_nil q)))
      (by intro y hy; exact absurd hy (List.not_mem_nil y))]
  rw [List.nil_append]

/-- C3 witness: the amended claim instantiated on concrete
LineTerminator-free lines. -/
theorem c3_witness :
    (∀ l ∈ [("1. Compute the sum".data : Str), "Q2 Define work".data],
        noTermChars l = true) ∧
      detectQuestions ["1. Compute the sum".data, "Q2 Define work".data] =
        detectGo 1 [] ["1. Compute the sum".data, "Q2 Define work".data] :=
  ⟨by decide, c3_discovery_order _ (by decide)⟩

/-- C4 counterexample: both universal halves of the claim fail.  The text
"Maximum Marks: 805" contains the substring "Maximum Marks: 80" yet
extractTotalMarks returns nothing (the captured 805 is above 500, and the
fallback patterns capture 805 again); and on the text "Marks: 5" the result
is nothing, not 5, because captures below 10 are rejected. -/
theorem c4_counterexample :
    extractTotalMarks ("Maximum Marks: 805".data) = none ∧
      extractTotalMarks ("Marks: 5".data) = none := by decide

/-- C4 (amended): extractTotalMarks returns a capture only when it lies in
the accepted range 10 to 500: the text "Maximum Marks: 80" yields 80 via the
highest-priority pattern; the text "Marks: 5" yields nothing because 5 is
below 10; the text "Marks: 50" alone yields 50 via the lower-priority
pattern. -/
theorem c4_total_marks :
    extractTotalMarks ("Maximum Marks: 80".data) = some 80 ∧
      extractTotalMarks ("Marks: 5".data) = none ∧
      extractTotalMarks ("Marks: 50".data) = some 50 := by decide

/-- C5 counterexample: an input holding two records with the identical id
"1" whose first occurrence fails the false-positive filter (text "ab" is
shorter than 3) produces an output with zero records of that id, refuting
the claim that the output contains exactly one. -/
theorem c5_counterexample :
    (([{ questionNumber := "1".data, questionText := some ("ab".data), marks := none,
         pageNumber := 1, confidence := .high },
       { questionNumber := "1".data, questionText := some ("ab".data), marks := none,
         pageNumber := 1, confidence := .high }] : List DetectedQuestion).filter
        (fun q => q.questionNumber == "1".data)).length = 2 ∧
      cleanQuestions
        [{ questionNumber := "1".data, questionText := some ("ab".data), marks := none,
           pageNumber := 1, confidence := .high },
         { questionNumber := "1".data, questionText := some ("ab".data), marks := none,
           pageNumber := 1, confidence := .high }] = [] := by decide

/-- C5 (amended): for every input list containing two records with
byte-identical questionNumber strings, the curated output contains at most
one record with that questionNumber; it is exactly the first-occurring such
input record when that record passes the false-positive filter, and there is
none otherwise. -/
theorem c5_dedup_keeps_first (xs : List DetectedQuestion) (k : Str)
    (h : 2 ≤ (xs.filter (fun q => q.questionNumber == k)).length) :
    ∃ q, xs.find? (fun q2 => q2.questionNumber == k) = some q ∧
      (cleanQuestions xs).filter (fun q2 => q2.questionNumber == k) =
        (if keepQ q then [q] else []) ∧
      ((cleanQuestions xs).filter (fun q2 => q2.questionNumber == k)).length ≤ 1 := by
  have hne : (xs.filter (fun q => q.questionNumber == k)) ≠ [] := by
    intro hnil
    rw [hnil] at h
    simp at h
  have hsome : (xs.find? (fun q => q.questionNumber == k)).isSome := by
    rw [List.find?_isSome]
    rcases List.exists_mem_of_ne_nil _ hne with ⟨a, ha⟩
    exact ⟨a, (List.mem_filter.mp ha).1, (List.mem_filter.mp ha).2⟩
  rcases Option.isSome_iff_exists.mp hsome with ⟨q, hq⟩
  have hfk : firstWithKey k xs = [q] := by
    simp only [firstWithKey]
    rw [hq]
  have hchar := cleanQuestions_filter_key k xs
  rw [hfk] at hchar
  refine ⟨q, hq, ?_, ?_⟩
  · rw [hchar]
    cases hkeep : keepQ q <;> simp [hkeep]
  · rw [hchar]
    cases hkeep : keepQ q <;> simp [hkeep]

/-- C5 witness: the amended claim instantiated on a concrete list with a
duplicated id. -/
theorem c5_witness :
    2 ≤ (([{ questionNumber := "1".data, questionText := none, marks := none,
             pageNumber := 1, confidence := .high },
           { questionNumber := "1".data, questionText := some ("Define x".data),
             marks := some 2, pageNumber := 1, confidence := .medium }] :
            List DetectedQuestion).filter
          (fun q => q.questionNumber == "1".data)).length ∧
      ((cleanQuestions
          [{ questionNumber := "1".data, questionText := none, marks := none,
             pageNumber := 1, confidence := .high },
           { questionNumber := "1".data, questionText := some ("Define x".data),
             marks := some 2, pageNumber := 1, confidence := .medium }]).filter
        (fun q2 => q2.questionNumber == "1".data)).length ≤ 1 :=
  ⟨by decide, by
    obtain ⟨q, hq1, hq2, hq3⟩ :=
      c5_dedup_keeps_first
        [{ questionNumber := "1".data, questionText := none, marks := none,
           pageNumber := 1, confidence := .high },
         { questionNumber := "1".data, questionText := some ("Define x".data),
           marks := some 2, pageNumber := 1, confidence := .medium }]
        ("1".data) (by decide)
    exact hq3⟩

/-- C6 counterexample: a record whose questionText is present but is the
empty string (length 0, hence shorter than 3) is not dropped by curation,
because the source tests the text for truthiness and the empty string is
falsy; this refutes the claim that every record with present text shorter
than 3 characters is dropped. -/
theorem c6_counterexample :
    (some ([] : Str)).isSome = true ∧ ([] : Str).length < 3 ∧
      cleanQuestions
        [{ questionNumber := "1".data, questionText := some ([] : Str), marks := none,
           pageNumber := 1, confidence := .high }] =
        [{ questionNumber := "1".data, questionText := some ([] : Str), marks := none,
           pageNumber := 1, confidence := .high }] := by decide

/-- C6 (amended): the curate operation drops every record whose questionText
is present, non-empty and shorter than 3 characters — a record whose text is
absent, or present but empty, is not dropped by this rule — and drops every
record whose numeric portion of questionNumber lies outside the range 1 to
100; consequently every record in the output has its text absent, empty or
at least 3 characters long, and its numeric id between 1 and 100. -/
theorem c6_filter_rules (xs : List DetectedQuestion) (q : DetectedQuestion)
    (h : q ∈ cleanQuestions xs) :
    (∀ t, q.questionText = some t → t = ([] : Str) ∨ 3 ≤ t.length) ∧
      1 ≤ numKey q.questionNumber ∧ numKey q.questionNumber ≤ 100 := by
  have hk : keepQ q = true := (List.mem_filter.mp h).2
  exact ⟨keepQ_text_ok q hk, keepQ_num_range q hk⟩

/-- C6 witness: the amended claim instantiated on a surviving record. -/
theorem c6_witness : 1 ≤ numKey ("7".data) ∧ numKey ("7".data) ≤ 100 :=
  (c6_filter_rules
    [{ questionNumber := "7".data, questionText := none, marks := none,
       pageNumber := 1, confidence := .high }]
    { questionNumber := "7".data, questionText := none, marks := none,
      pageNumber := 1, confidence := .high } (by decide)).2

/-- C7: the curate operation is idempotent: applying cleanQuestions twice
equals applying it once, for every question list. -/
theorem c7_curate_idempotent (xs : List DetectedQuestion) :
    cleanQuestions (cleanQuestions xs) = cleanQuestions xs := by
  have hnodup : (((dedupGo [] xs).filter keepQ).map (fun q => q.questionNumber)).Nodup := by
    have hsub : (((dedupGo [] xs).filter keepQ).map (fun q => q.questionNumber)).Sublist
        ((dedupGo [] xs).map (fun q => q.questionNumber)) :=
      List.Sublist.map _ (List.filter_sublist _)
    exact List.Nodup.sublist hsub (dedupGo_keys_nodup [] xs)
  unfold cleanQuestions
  rw [dedupGo_eq_self _ [] hnodup (fun q _ => List.not_mem_nil _)]
  exact filterTwice keepQ _

/-- C8: when no line of the input text matches any question-marker pattern,
parsing does not fail: it returns zero total questions and an empty question
list. -/
theorem c8_no_markers (text : Str)
    (h : ∀ l ∈ splitNl text, (tryPatterns QUESTION_PATTERNS (trimStr l)).isSome = false) :
    parseQuestions text = { totalQuestions := 0, questions := [] } := by
  have h0 : detectGo 1 [] (splitNl text) = [] := detectGo_eq_nil (splitNl text) 1 h
  simp [parseQuestions, detectQuestions, sortQuestions, h0]

/-- C8 witness: the claim instantiated on a concrete marker-free text. -/
theorem c8_witness :
    (∀ l ∈ splitNl ("hello\nworld".data),
        (tryPatterns QUESTION_PATTERNS (trimStr l)).isSome = false) ∧
      parseQuestions ("hello\nworld".data) = { totalQuestions := 0, questions := [] } :=
  ⟨by decide, c8_no_markers _ (by decide)⟩

/-- C9: during the line walk, a non-empty line containing a bracketed number
anywhere is always consumed as a page break: the page counter is incremented
and the walk continues with the accumulated records unchanged, so no
question record is ever created from that line, even when the line begins
with question-marker text. -/
theorem c9_bracket_number_page_break (page : Nat) (acc : List DetectedQuestion)
    (l : Str) (ls : List Str) (h1 : trimStr l ≠ ([] : Str))
    (h2 : hasBracketNum (trimStr l) = true) :
    detectGo page acc (l :: ls) = detectGo (page + 1) acc ls := by
  have hpb : isPageBreak (trimStr l) = true := by
    unfold isPageBreak
    rw [h2]
    simp
  have hpl : processLine page acc l ls = (page + 1, acc) := by
    unfold processLine
    rw [if_neg h1, if_pos hpb]
  show detectGo (processLine page acc l ls).1 (processLine page acc l ls).2 ls =
    detectGo (page + 1) acc ls
  rw [hpl]

/-- C9 witness: the claim instantiated on a line that starts with a question
marker yet carries a bracketed number. -/
theorem c9_witness :
    trimStr ("1. Solve [5]".data) ≠ ([] : Str) ∧
      hasBracketNum (trimStr ("1. Solve [5]".data)) = true ∧
      detectGo 1 [] [("1. Solve [5]".data)] = detectGo 2 [] [] :=
  ⟨by decide, by decide,
   c9_bracket_number_page_break 1 [] ("1. Solve [5]".data) [] (by decide) (by decide)⟩

/-- C10: the curated output never contains a record whose questionNumber
holds no digit; in particular no id of the sub-part-only shape, an open
paren, one lowercase letter and a close paren, survives curation, since a
digitless id has numeric portion 0, which is outside the accepted range. -/
theorem c10_no_digitless_ids (xs : List DetectedQuestion) (q : DetectedQuestion)
    (h : q ∈ cleanQuestions xs) :
    q.questionNumber.any isDigitCh = true ∧
      ∀ c : Char, isLowerAZ c = true → q.questionNumber ≠ ['(', c, ')'] := by
  have hk : keepQ q = true := (List.mem_filter.mp h).2
  have hnum := (keepQ_num_range q hk).1
  have hany : q.questionNumber.any isDigitCh = true := by
    by_contra hfalse
    have hallb : q.questionNumber.any isDigitCh = false := by
      revert hfalse
      cases q.questionNumber.any isDigitCh <;> simp
    have hall : ∀ c ∈ q.questionNumber, isDigitCh c = false := by
      intro c hc
      have := List.any_eq_false.mp hallb c hc
      revert this
      cases isDigitCh c <;> simp
    have hnone : firstDigitRun q.questionNumber = none := (firstDigitRun_none_iff _).mpr hall
    have hzero : numKey q.questionNumber = 0 := by
      simp [numKey, hnone]
    omega
  refine ⟨hany, ?_⟩
  intro c hc heq
  have h1 : isDigitCh c = true := by
    rw [heq] at hany
    simpa [List.any_cons, List.any_nil, show isDigitCh '(' = false from by decide,
      show isDigitCh ')' = false from by decide] using hany
  simp only [isDigitCh, Bool.and_eq_true, decide_eq_true_eq] at h1
  simp only [isLowerAZ, Bool.and_eq_true, decide_eq_true_eq] at hc
  omega

/-- C10 witness: the claim instantiated on a surviving record whose id does
contain a digit. -/
theorem c10_witness : ("12(b)".data).any isDigitCh = true :=
  (c10_no_digitless_ids
    [{ questionNumber := "12(b)".data, questionText := some ("Find the value".data),
       marks := none, pageNumber := 1, confidence := .high }]
    { questionNumber := "12(b)".data, questionText := some ("Find the value".data),
      marks := none, pageNumber := 1, confidence := .high } (by decide)).1
